import Mathlib

/-!
Verification development for the EnergyZ investment-framework app
(`src/app.py`): a shallow embedding of its extraction-to-persistence
pipeline (text extraction, model-response parsing, transactional
multi-table persistence) together with theorems about its behaviour.
-/

namespace EnergyZ

/-! Values carried in a FieldMap and in table columns.  The Python code
passes extracted values through unmodified, so a value is either a piece
of text or a number. -/

inductive PyVal
  | str : String → PyVal
  | num : Rat → PyVal
deriving DecidableEq

/-- A FieldMap: mapping from canonical field name to extracted value,
as produced by evaluating the model response (a Python dict). -/
abbrev FieldMap := List (String × PyVal)

/-- Python `dict.get(k)`: the value at key `k`, or `None` when absent. -/
def FieldMap.get (m : FieldMap) (k : String) : Option PyVal :=
  (m.find? (fun kv => kv.1 == k)).map (fun kv => kv.2)

/-! Rows of the three tables, mirroring the SQLAlchemy models in
`src/app.py` lines 27-57.  All data columns are nullable and typed
loosely, as in the source (SQLite performs no coercion of its own). -/

structure ProjectRow where
  id : Nat
  project_name : Option PyVal
  sector : Option PyVal
  country : Option PyVal
  region : Option PyVal
  status : Option PyVal
  start_date : Option PyVal
  end_date : Option PyVal
  description : Option PyVal
deriving DecidableEq

structure FinancialRow where
  id : Nat
  project_id : Nat
  capex : Option PyVal
  opex : Option PyVal
  irr : Option PyVal
  npv : Option PyVal
  currency : Option PyVal
deriving DecidableEq

structure EnvironmentalRow where
  id : Nat
  project_id : Nat
  co2e_reduction : Option PyVal
  carbon_intensity : Option PyVal
  lifecycle_emissions : Option PyVal
  emissions_profile : List (String × Rat)
  data_source : String
deriving DecidableEq

/-- The persistent store: the three tables of `investment.db`. -/
structure DB where
  projects : List ProjectRow
  financials : List FinancialRow
  environmentals : List EnvironmentalRow
deriving DecidableEq

def emptyDB : DB := ⟨[], [], []⟩

/-- Referential integrity of a store: every FinancialData and
EnvironmentalData row's project reference resolves to a Project row. -/
def DB.refIntact (db : DB) : Prop :=
  (∀ f ∈ db.financials, ∃ p ∈ db.projects, p.id = f.project_id) ∧
  (∀ e ∈ db.environmentals, ∃ p ∈ db.projects, p.id = e.project_id)

/-- Identity the database assigns to the next inserted Project row
(the autoincrement primary key materialised by `session.flush()`). -/
def DB.nextProjectId (db : DB) : Nat := db.projects.length + 1

def DB.nextFinancialId (db : DB) : Nat := db.financials.length + 1

def DB.nextEnvironmentalId (db : DB) : Nat := db.environmentals.length + 1

/-- The Project row built in `save_extracted_fields` (lines 93-102):
every column is `data.get(...)` of the corresponding field name. -/
def projectRowFor (pid : Nat) (data : FieldMap) : ProjectRow :=
  { id := pid
    project_name := FieldMap.get data "Project Name"
    sector := FieldMap.get data "Sector"
    country := FieldMap.get data "Country"
    region := FieldMap.get data "Region"
    status := FieldMap.get data "Status"
    start_date := FieldMap.get data "Start Date"
    end_date := FieldMap.get data "End Date"
    description := FieldMap.get data "Description" }

/-- Value of a decimal digit character, or `none` for any other
character. -/
def digitVal? (c : Char) : Option Nat :=
  if 48 ≤ c.toNat ∧ c.toNat ≤ 57 then some (c.toNat - 48) else none

def digitsToNatAux : List Char → Nat → Option Nat
  | [], acc => some acc
  | c :: cs, acc =>
      match digitVal? c with
      | some d => digitsToNatAux cs (10 * acc + d)
      | none => none

/-- A non-empty run of decimal digits read as a number; anything else
is rejected. -/
def digitsToNat? : List Char → Option Nat
  | [] => none
  | cs => digitsToNatAux cs 0

def isSpaceChar (c : Char) : Bool :=
  c == ' ' || c == '\t' || c == '\n' || c == '\r'

def trimChars (cs : List Char) : List Char :=
  ((cs.dropWhile isSpaceChar).reverse.dropWhile isSpaceChar).reverse

/-- Digits with an optional single fractional part, e.g. `123` or
`123.45`. -/
def parseUnsigned? (cs : List Char) : Option Rat :=
  let ws := cs.span (fun c => !(c == '.'))
  match ws.2 with
  | [] => (digitsToNat? ws.1).map (fun n => (n : Rat))
  | _ :: f =>
      if f.contains '.' then none
      else
        match digitsToNat? ws.1, digitsToNat? f with
        | some n, some m =>
            some ((n : Rat) + (m : Rat) / ((10 : Rat) ^ f.length))
        | _, _ => none

/-- Python `float(s)` as the database driver applies it when binding a
text value to a Float column (SQLAlchemy's `to_float` bind processing on
SQLite): optional surrounding whitespace, an optional sign, then digits
with an optional fractional part parse to the number; any other text
raises `ValueError`. -/
def parseFloat? (s : String) : Option Rat :=
  match trimChars s.toList with
  | '-' :: rest => (parseUnsigned? rest).map (fun q => -q)
  | '+' :: rest => parseUnsigned? rest
  | rest => parseUnsigned? rest

/-- Whether a value offered for a Float column binds without raising:
`None` and numbers bind, text binds only when `float(s)` succeeds. -/
def floatOk : Option PyVal → Bool
  | none => true
  | some (PyVal.num _) => true
  | some (PyVal.str s) => (parseFloat? s).isSome

/-- The value actually bound to a Float column when binding succeeds:
numbers pass through, parseable text is coerced to its number. -/
def toFloatCol : Option PyVal → Option PyVal
  | none => none
  | some (PyVal.num q) => some (PyVal.num q)
  | some (PyVal.str s) =>
      match parseFloat? s with
      | some q => some (PyVal.num q)
      | none => none

/-- The FinancialData row built in `save_extracted_fields` (lines
106-113) as it reaches the table: the Float columns (capex, irr, npv)
carry the driver-coerced value, the String column opex passes through
unmodified, and the currency is the literal `"USD"`. -/
def financialRowFor (fid pid : Nat) (data : FieldMap) : FinancialRow :=
  { id := fid
    project_id := pid
    capex := toFloatCol (FieldMap.get data "Capex")
    opex := FieldMap.get data "Opex"
    irr := toFloatCol (FieldMap.get data "IRR")
    npv := toFloatCol (FieldMap.get data "NPV")
    currency := some (PyVal.str "USD") }

/-- The fixed emissions profile literal of line 121. -/
def placeholderProfile : List (String × Rat) :=
  [("Scope 1", 0), ("Scope 2", 5 / 100), ("Scope 3", 0)]

/-- The EnvironmentalData row built in `save_extracted_fields` (lines
116-123): the emissions profile is the hardcoded placeholder and the
data source is the literal provenance tag. -/
def environmentalRowFor (eid pid : Nat) (data : FieldMap) : EnvironmentalRow :=
  { id := eid
    project_id := pid
    co2e_reduction := FieldMap.get data "CO₂e Reduction"
    carbon_intensity := FieldMap.get data "Carbon Intensity"
    lifecycle_emissions := FieldMap.get data "Lifecycle Emissions"
    emissions_profile := placeholderProfile
    data_source := "Extracted via NLP" }

/-- The points at which the database session can raise inside the `try`
block of `save_extracted_fields`: the two adds, the flush, the add of
each dependent row and the final commit. -/
inductive SaveStep
  | addProject
  | flushProject
  | addFinancial
  | addEnvironmental
  | commit
deriving DecidableEq

/-- Shallow embedding of `save_extracted_fields` (lines 90-133).  The
`fail` oracle says which session operations raise; an exception at any
step reaches the `except` clause, which rolls the session back (the
store is left as it was) and returns `False`; otherwise the three rows
are committed together and the function returns `True`.  The
FinancialData insert is flushed inside the commit, where the driver
binds the Float columns: an unparseable text value there raises
`ValueError`, which the same `except` clause turns into a rollback.
The `finally` clause closes the session on both paths, so the returned
store is the whole outcome. -/
def save_extracted_fields (db : DB) (data : FieldMap) (fail : SaveStep → Bool) :
    DB × Bool :=
  if fail SaveStep.addProject then (db, false)
  else if fail SaveStep.flushProject then (db, false)
  else
    let pid := db.nextProjectId
    let project := projectRowFor pid data
    if fail SaveStep.addFinancial then (db, false)
    else
      let financial := financialRowFor db.nextFinancialId pid data
      if fail SaveStep.addEnvironmental then (db, false)
      else
        let environmental := environmentalRowFor db.nextEnvironmentalId pid data
        if !(floatOk (FieldMap.get data "Capex") &&
              floatOk (FieldMap.get data "IRR") &&
              floatOk (FieldMap.get data "NPV")) then (db, false)
        else if fail SaveStep.commit then (db, false)
        else
          ({ projects := db.projects ++ [project]
             financials := db.financials ++ [financial]
             environmentals := db.environmentals ++ [environmental] }, true)

/-! The Response Parser.  Line 165 of the source is
`structured_dict = eval(structured_output)`: the raw model response is
handed to the Python expression evaluator.  A response is therefore one
of: a well-formed dict literal, a syntactically valid expression whose
evaluation performs side effects (e.g. a call such as
`__import__(...).system(...)`), or text that is not valid Python. -/

inductive ModelResponse
  | dictLit : FieldMap → ModelResponse
  | executable : String → ModelResponse
  | malformed : ModelResponse
deriving DecidableEq

/-- Semantics of Python `eval` on a model response: the optional
FieldMap it produces, paired with the list of side effects its
evaluation performs.  A dict literal evaluates to itself with no
effects; an executable expression performs its effect (and yields no
FieldMap to the pipeline); invalid text raises, which the surrounding
`try` turns into a reported parse failure. -/
def pyEval : ModelResponse → Option FieldMap × List String
  | ModelResponse.dictLit m => (some m, [])
  | ModelResponse.executable eff => (none, [eff])
  | ModelResponse.malformed => (none, [])

/-- The parse step of the pipeline, exactly line 165: the response is
passed to `eval`. -/
def parse_response (r : ModelResponse) : Option FieldMap × List String :=
  pyEval r

/-! The Text Extractor (lines 62-68). -/

/-- Python `"\n".join(l)`. -/
def joinLines : List String → String
  | [] => ""
  | [p] => p
  | p :: ps => p ++ "\n" ++ joinLines ps

/-- `extract_text_from_pdf` (lines 62-64): join the per-page texts with
line breaks, keeping only pages whose `extract_text()` is truthy (a
page yielding no text produces the empty string and is skipped). -/
def extract_text_from_pdf (pages : List String) : String :=
  joinLines (pages.filter (fun t => !(t == "")))

/-- `extract_text_from_docx` (lines 66-68): join the text of every
paragraph, in order, with line breaks; nothing is filtered. -/
def extract_text_from_docx (paras : List String) : String :=
  joinLines paras

/-- An uploaded document as dispatched on lines 146-151: for each kind,
`none` stands for a file the reader cannot parse (the library raises). -/
inductive UploadedDoc
  | pdf : Option (List String) → UploadedDoc
  | docx : Option (List String) → UploadedDoc
  | txt : Option String → UploadedDoc
deriving DecidableEq

/-- The extraction stage of the dispatch: a readable document yields its
text, an unreadable one raises, which surfaces to the caller as an
extraction error and the pipeline run for this document stops. -/
def extract_stage : UploadedDoc → Except String String
  | UploadedDoc.pdf none => Except.error "ExtractionError: unreadable PDF"
  | UploadedDoc.pdf (some pages) => Except.ok (extract_text_from_pdf pages)
  | UploadedDoc.docx none => Except.error "ExtractionError: unreadable document"
  | UploadedDoc.docx (some paras) => Except.ok (extract_text_from_docx paras)
  | UploadedDoc.txt none => Except.error "ExtractionError: undecodable text"
  | UploadedDoc.txt (some s) => Except.ok s

/-- The whole pipeline for one document (lines 142-174): extract text,
obtain a model response, parse it with `parse_response`, hand the
FieldMap to the review stage, then persist.  A failure in extraction or
parsing halts the run with an error before any write; otherwise the
outcome is that of `save_extracted_fields`. -/
def run_pipeline (db : DB) (doc : UploadedDoc)
    (respond : String → ModelResponse) (review : FieldMap → FieldMap)
    (fail : SaveStep → Bool) : DB × Except String Bool :=
  match extract_stage doc with
  | Except.error e => (db, Except.error e)
  | Except.ok text =>
      match (parse_response (respond text)).1 with
      | none => (db, Except.error "ParseError: failed to parse extracted data")
      | some fm =>
          let r := save_extracted_fields db (review fm) fail
          (r.1, Except.ok r.2)

/-! Theorems -/

/-- Case analysis of the save: either some step raised and the store is
untouched with `False` returned, or no step raised and exactly the three
rows are appended with `True` returned. -/
theorem save_cases (db : DB) (data : FieldMap) (fail : SaveStep → Bool) :
    save_extracted_fields db data fail = (db, false) ∨
    save_extracted_fields db data fail =
      ({ projects := db.projects ++ [projectRowFor db.nextProjectId data]
         financials :=
           db.financials ++ [financialRowFor db.nextFinancialId db.nextProjectId data]
         environmentals :=
           db.environmentals ++
             [environmentalRowFor db.nextEnvironmentalId db.nextProjectId data] },
        true) := by
  unfold save_extracted_fields
  split_ifs <;> simp

/-- C2: for every FieldMap, after the save attempt either all three rows
(one Project, one FinancialData, one EnvironmentalData) are persisted
together with consistent cross-references, or the store is exactly what
it was before the attempt (any failure rolls back all writes, leaves
zero rows from this attempt) and the call returns `false` rather than
raising. -/
theorem save_extracted_fields_atomic (db : DB) (data : FieldMap)
    (fail : SaveStep → Bool) :
    ((save_extracted_fields db data fail).2 = true ∧
      ∃ p fi en,
        (save_extracted_fields db data fail).1.projects = db.projects ++ [p] ∧
        (save_extracted_fields db data fail).1.financials = db.financials ++ [fi] ∧
        (save_extracted_fields db data fail).1.environmentals =
          db.environmentals ++ [en] ∧
        fi.project_id = p.id ∧ en.project_id = p.id) ∨
    ((save_extracted_fields db data fail).2 = false ∧
      (save_extracted_fields db data fail).1 = db) := by
  rcases save_cases db data fail with h | h <;> rw [h]
  · exact Or.inr ⟨rfl, rfl⟩
  · exact Or.inl ⟨rfl,
      projectRowFor db.nextProjectId data,
      financialRowFor db.nextFinancialId db.nextProjectId data,
      environmentalRowFor db.nextEnvironmentalId db.nextProjectId data,
      rfl, rfl, rfl, rfl, rfl⟩

/-- C3: the save preserves referential integrity, and on success the
FinancialData and EnvironmentalData rows it appends both carry a project
reference equal to the identity of the Project row appended in the same
transaction (the identity assigned at the flush, before either dependent
row is built). -/
theorem save_extracted_fields_referential_integrity (db : DB) (data : FieldMap)
    (fail : SaveStep → Bool) (hdb : db.refIntact) :
    ((save_extracted_fields db data fail).1).refIntact ∧
    ((save_extracted_fields db data fail).2 = true →
      ∃ p fi en,
        (save_extracted_fields db data fail).1.projects = db.projects ++ [p] ∧
        (save_extracted_fields db data fail).1.financials = db.financials ++ [fi] ∧
        (save_extracted_fields db data fail).1.environmentals =
          db.environmentals ++ [en] ∧
        fi.project_id = p.id ∧ en.project_id = p.id) := by
  rcases save_cases db data fail with h | h <;> rw [h]
  · exact ⟨hdb, by simp⟩
  · obtain ⟨hf, he⟩ := hdb
    refine ⟨⟨?_, ?_⟩, ?_⟩
    · intro f hfm
      rcases List.mem_append.mp hfm with hold | hnew
      · obtain ⟨p, hp, hpid⟩ := hf f hold
        exact ⟨p, List.mem_append.mpr (Or.inl hp), hpid⟩
      · refine ⟨projectRowFor db.nextProjectId data,
          List.mem_append.mpr (Or.inr (List.mem_singleton.mpr rfl)), ?_⟩
        simp only [List.mem_singleton] at hnew
        subst hnew
        rfl
    · intro e hem
      rcases List.mem_append.mp hem with hold | hnew
      · obtain ⟨p, hp, hpid⟩ := he e hold
        exact ⟨p, List.mem_append.mpr (Or.inl hp), hpid⟩
      · refine ⟨projectRowFor db.nextProjectId data,
          List.mem_append.mpr (Or.inr (List.mem_singleton.mpr rfl)), ?_⟩
        simp only [List.mem_singleton] at hnew
        subst hnew
        rfl
    · intro _
      exact ⟨projectRowFor db.nextProjectId data,
        financialRowFor db.nextFinancialId db.nextProjectId data,
        environmentalRowFor db.nextEnvironmentalId db.nextProjectId data,
        rfl, rfl, rfl, rfl, rfl⟩

/-- Witness for C3 at a concrete store, FieldMap and failure-free run. -/
theorem save_extracted_fields_referential_integrity_witness :
    emptyDB.refIntact ∧
    ((save_extracted_fields emptyDB [("Project Name", PyVal.str "Solar Farm")]
        (fun _ => false)).1).refIntact :=
  have h : emptyDB.refIntact := by
    constructor <;> intro x hx <;> exact absurd hx (List.not_mem_nil x)
  ⟨h, (save_extracted_fields_referential_integrity emptyDB
      [("Project Name", PyVal.str "Solar Farm")] (fun _ => false) h).1⟩

/-- C6: for every FieldMap, any EnvironmentalData row the save appends
carries the fixed placeholder emissions profile (independent of the
extracted data) and the machine-derived provenance tag as its data
source. -/
theorem save_extracted_fields_environmental_placeholder (db : DB)
    (data : FieldMap) (fail : SaveStep → Bool) :
    (save_extracted_fields db data fail).1.environmentals = db.environmentals ∨
    ∃ en,
      (save_extracted_fields db data fail).1.environmentals =
        db.environmentals ++ [en] ∧
      en.emissions_profile = [("Scope 1", 0), ("Scope 2", 5 / 100), ("Scope 3", 0)] ∧
      en.data_source = "Extracted via NLP" := by
  rcases save_cases db data fail with h | h <;> rw [h]
  · exact Or.inl rfl
  · exact Or.inr
      ⟨environmentalRowFor db.nextEnvironmentalId db.nextProjectId data,
        rfl, rfl, rfl⟩

/-- C4: the claim is right and the code is wrong.  At the concrete
FieldMap whose Capex is the unparseable text "five million", even with
every session operation healthy, the driver's Float-column bind
coercion raises inside the commit, the transaction rolls back, nothing
is persisted and the call returns `false` — the save does not store the
field as null as the spec requires; the unparseable value aborts the
whole save. -/
theorem capex_unparseable_aborts_save :
    save_extracted_fields emptyDB [("Capex", PyVal.str "five million")]
        (fun _ => false) = (emptyDB, false) ∧
    floatOk (FieldMap.get [("Capex", PyVal.str "five million")] "Capex") =
      false := by
  constructor <;> decide

/-- C5: for every FieldMap lacking a currency value, a successful save
appends a FinancialData row whose currency is `"USD"`. -/
theorem save_extracted_fields_currency_default (db : DB) (data : FieldMap)
    (fail : SaveStep → Bool)
    (hc : FieldMap.get data "Currency" = none)
    (h : (save_extracted_fields db data fail).2 = true) :
    ∃ fi,
      (save_extracted_fields db data fail).1.financials = db.financials ++ [fi] ∧
      fi.currency = some (PyVal.str "USD") := by
  rcases save_cases db data fail with hcase | hcase
  · rw [hcase] at h
    exact absurd h (by simp)
  · rw [hcase]
    exact ⟨financialRowFor db.nextFinancialId db.nextProjectId data, rfl, rfl⟩

/-- Witness for C5 at a concrete run with no currency field. -/
theorem save_extracted_fields_currency_default_witness :
    FieldMap.get [("Capex", PyVal.num 5000000)] "Currency" = none ∧
    ∃ fi,
      (save_extracted_fields emptyDB [("Capex", PyVal.num 5000000)]
          (fun _ => false)).1.financials = emptyDB.financials ++ [fi] ∧
      fi.currency = some (PyVal.str "USD") :=
  ⟨rfl, save_extracted_fields_currency_default emptyDB
    [("Capex", PyVal.num 5000000)] (fun _ => false) rfl rfl⟩

/-- C10: even for a FieldMap that carries an explicit currency value, a
successful save appends a FinancialData row whose currency is `"USD"`:
the caller-supplied value is unconditionally overwritten. -/
theorem save_extracted_fields_currency_overwritten (db : DB) (data : FieldMap)
    (fail : SaveStep → Bool) (v : PyVal)
    (h : (save_extracted_fields db (("Currency", v) :: data) fail).2 = true) :
    FieldMap.get (("Currency", v) :: data) "Currency" = some v ∧
    ∃ fi,
      (save_extracted_fields db (("Currency", v) :: data) fail).1.financials =
        db.financials ++ [fi] ∧
      fi.currency = some (PyVal.str "USD") := by
  refine ⟨by simp [FieldMap.get, List.find?], ?_⟩
  rcases save_cases db (("Currency", v) :: data) fail with hcase | hcase
  · rw [hcase] at h
    exact absurd h (by simp)
  · rw [hcase]
    exact ⟨financialRowFor db.nextFinancialId db.nextProjectId
        (("Currency", v) :: data), rfl, rfl⟩

/-- Witness for C10: a FieldMap supplying currency "EUR" still persists
currency "USD". -/
theorem save_extracted_fields_currency_overwritten_witness :
    FieldMap.get [("Currency", PyVal.str "EUR")] "Currency" =
      some (PyVal.str "EUR") ∧
    ∃ fi,
      (save_extracted_fields emptyDB [("Currency", PyVal.str "EUR")]
          (fun _ => false)).1.financials = emptyDB.financials ++ [fi] ∧
      fi.currency = some (PyVal.str "USD") :=
  save_extracted_fields_currency_overwritten emptyDB [] (fun _ => false)
    (PyVal.str "EUR") rfl

/-- C7: PDF extraction joins per-page texts with line breaks and skips
pages yielding no text: the two-page scenario produces exactly the first
page's text, a page with no text between two text pages contributes
nothing but its neighbours stay joined by a line break, and in general
deleting an empty page anywhere leaves the output unchanged. -/
theorem extract_text_from_pdf_skips_empty_pages :
    extract_text_from_pdf ["Project Alpha, Kenya", ""] = "Project Alpha, Kenya" ∧
    extract_text_from_pdf ["Project Alpha, Kenya", "", "Capex: 5M"] =
      "Project Alpha, Kenya\nCapex: 5M" ∧
    ∀ (ps qs : List String),
      extract_text_from_pdf (ps ++ "" :: qs) = extract_text_from_pdf (ps ++ qs) := by
  refine ⟨rfl, rfl, ?_⟩
  intro ps qs
  simp [extract_text_from_pdf, List.filter_append, List.filter_cons]

/-- C8 counterexample: the Word-document scenario of the claim fails on
the code: joining the paragraphs ["Solar Farm", "", "Capex: 5M"] with
line breaks yields "Solar Farm\n\nCapex: 5M", which differs from the
claimed text "Solar Farm\n\n Capex: 5M" (stray space before "Capex"). -/
theorem extract_text_from_docx_scenario_mismatch :
    extract_text_from_docx ["Solar Farm", "", "Capex: 5M"] =
      "Solar Farm\n\nCapex: 5M" ∧
    extract_text_from_docx ["Solar Farm", "", "Capex: 5M"] ≠
      "Solar Farm\n\n Capex: 5M" := by
  refine ⟨rfl, ?_⟩
  decide

/-- C8 amended: Word extraction concatenates every paragraph in document
order, each separated by a line break and empty paragraphs preserved as
empty lines; the scenario output is "Solar Farm\n\nCapex: 5M" (no space
before "Capex"), and in general the text of a document with a further
paragraph is the first paragraph, a line break, then the text of the
rest. -/
theorem extract_text_from_docx_joins_paragraphs :
    extract_text_from_docx ["Solar Farm", "", "Capex: 5M"] =
      "Solar Farm\n\nCapex: 5M" ∧
    ∀ (p : String) (ps : List String), ps ≠ [] →
      extract_text_from_docx (p :: ps) =
        p ++ "\n" ++ extract_text_from_docx ps := by
  refine ⟨rfl, ?_⟩
  intro p ps hps
  match ps with
  | [] => exact absurd rfl hps
  | q :: rest => rfl

/-- Witness for the amended C8 on a concrete two-paragraph document. -/
theorem extract_text_from_docx_joins_paragraphs_witness :
    extract_text_from_docx ["Solar Farm", "Capex: 5M"] =
      "Solar Farm" ++ "\n" ++ extract_text_from_docx ["Capex: 5M"] :=
  extract_text_from_docx_joins_paragraphs.2 "Solar Farm" ["Capex: 5M"]
    (by decide)

/-- C9: a document the extractor cannot parse halts the pipeline run for
that document with the extraction error surfaced to the caller, and the
store is exactly what it was — no partial state is created. -/
theorem run_pipeline_extraction_error_halts (db : DB) (doc : UploadedDoc)
    (respond : String → ModelResponse) (review : FieldMap → FieldMap)
    (fail : SaveStep → Bool) (msg : String)
    (h : extract_stage doc = Except.error msg) :
    run_pipeline db doc respond review fail = (db, Except.error msg) := by
  unfold run_pipeline
  rw [h]

/-- Witness for C9: an unreadable PDF leaves the empty store untouched
and reports the extraction error. -/
theorem run_pipeline_extraction_error_halts_witness :
    run_pipeline emptyDB (UploadedDoc.pdf none)
        (fun _ => ModelResponse.malformed) (fun fm => fm) (fun _ => false) =
      (emptyDB, Except.error "ExtractionError: unreadable PDF") :=
  run_pipeline_extraction_error_halts emptyDB (UploadedDoc.pdf none)
    (fun _ => ModelResponse.malformed) (fun fm => fm) (fun _ => false)
    "ExtractionError: unreadable PDF" rfl

/-- C1: the parse step violates the claim: because line 165 hands the
raw model response to the Python expression evaluator, a response that
is a syntactically valid effectful expression is executed — its side
effect list is non-empty — instead of being rejected with a parse
failure and no side effects. -/
theorem parse_response_executes_code :
    (parse_response
        (ModelResponse.executable "import os and run a shell command")).2 =
      ["import os and run a shell command"] ∧
    (parse_response
        (ModelResponse.executable "import os and run a shell command")).2 ≠
      [] ∧
    (parse_response
        (ModelResponse.executable "import os and run a shell command")).1 =
      none := by
  refine ⟨rfl, ?_, rfl⟩
  decide

end EnergyZ
